import Mathlib

set_option maxRecDepth 20000

/-!
# Verification of the magic-writer suggestion/correction reconciliation engine

Shallow embedding of the core of `src/App.tsx` and the service layer
(`src/unnamed/part_000`, the gemini service module) of the magic-writer
repository, together with proofs and refutations of its specified
properties.

Modelling conventions:

* Strings are Lean `String`s; the JavaScript operations used by the source
  (`String.prototype.replace` with a literal string pattern, with a global
  guarded regex `(?<!>)lit(?!<)`, and with the single-character global regex
  `/"/g`, plus `trim` and `length`) are embedded as executable functions on
  `List Char`.  All inputs exercised here are ASCII, where JavaScript's
  UTF-16 `length` coincides with the codepoint count.
* The asynchronous gemini calls are abstracted by an `Except Unit String`
  outcome (the resolved response text, or a network/model failure), and
  `JSON.parse` + schema validation by a `parse` function returning
  `Option` of the expected list shape (`none` models a parse exception or a
  response that is not the expected array, both caught by the try/catch
  blocks in the source).
* The random ids `Math.random().toString(36).substr(2, 9)` are abstracted
  by an id supply `Nat → String`.
* `$`-substitution patterns in `String.prototype.replace` replacement
  strings are not modelled; no claim exercises a replacement containing `$`.
-/

namespace MagicWriter

/-- Whitespace recognised by JavaScript `String.prototype.trim` (the subset
relevant to the ASCII inputs considered here). -/
def isJsWs (c : Char) : Bool :=
  c = ' ' ∨ c = '\t' ∨ c = '\n' ∨ c = '\r' ∨ c = '\x0b' ∨ c = '\x0c'

/-- JavaScript `s.trim()`: strip whitespace from both ends. -/
def jsTrim (s : String) : String :=
  ⟨((s.toList.dropWhile isJsWs).reverse.dropWhile isJsWs).reverse⟩

/-- JavaScript global replace of the double-quote character: every double
quote is replaced by the entity `&quot;` (from `App.tsx` line 169). -/
def escapeQuotesL : List Char → List Char
  | [] => []
  | c :: cs => (if c = '"' then "&quot;".toList else [c]) ++ escapeQuotesL cs

/-- String-level wrapper for `escapeQuotesL`. -/
def escapeQuotes (s : String) : String := ⟨escapeQuotesL s.toList⟩

/-- `Suggestion` from `src/types.ts`: a pending style-suggestion edit. -/
structure Suggestion where
  originalText : String
  suggestedText : String
  id : String
deriving DecidableEq, Repr

/-- `GrammarError` from `src/types.ts`: a pending grammar-correction edit. -/
structure GrammarError where
  errorText : String
  correction : String
  explanation : String
  id : String
deriving DecidableEq, Repr

/-- A style suggestion as delivered by the service, before an id is
attached (`{originalText, suggestedText}` per the response schema). -/
structure RawSuggestion where
  originalText : String
  suggestedText : String
deriving DecidableEq, Repr

/-- A grammar error as delivered by the service, before an id is attached
(`{errorText, correction, explanation}` per the response schema). -/
structure RawGrammarError where
  errorText : String
  correction : String
  explanation : String
deriving DecidableEq, Repr

/-- The overlay markup emitted for one grammar error by
`editorHtmlWithHighlights` (`App.tsx` line 162).  The explanation is
interpolated into the `title` attribute as-is. -/
def grammarSpan (e : GrammarError) : String :=
  "<span class=\"grammar-error-underline\" id=\"error-" ++ e.id ++
    "\" title=\"" ++ e.explanation ++ "\">" ++ e.errorText ++ "</span>"

/-- The overlay markup emitted for one style suggestion by
`editorHtmlWithHighlights` (`App.tsx` line 169).  Double quotes in the
suggested text are escaped before interpolation into the `title`
attribute. -/
def suggestionSpan (s : Suggestion) : String :=
  "<span class=\"suggestion-underline\" id=\"suggestion-" ++ s.id ++
    "\" title=\"Suggested change: " ++ escapeQuotes s.suggestedText ++
    "\">" ++ s.originalText ++ "</span>"

/-- The markup string the resolution handlers search for when accepting or
rejecting a style suggestion (`App.tsx` lines 109, 120).  Note: it carries
no `title` attribute. -/
def suggestionMarkup (s : Suggestion) : String :=
  "<span class=\"suggestion-underline\" id=\"suggestion-" ++ s.id ++ "\">" ++
    s.originalText ++ "</span>"

/-- The markup string the resolution handlers search for when accepting or
rejecting a grammar correction (`App.tsx` lines 131, 142).  Note: it
carries no `title` attribute. -/
def correctionMarkup (e : GrammarError) : String :=
  "<span class=\"grammar-error-underline\" id=\"error-" ++ e.id ++ "\">" ++
    e.errorText ++ "</span>"

/-- Guard for one match attempt of the regex
`(?<!>)lit(?!<)` at the current scan position: the literal pattern `M`
must start here, the previous character (if any) must not be `>`, and the
character following the match (if any) must not be `<`.  `escapeRegex`
(`App.tsx` line 150) escapes every regex metacharacter, so the pattern
matches `M` literally. -/
def matchGuardOk (prev : Option Char) (M cs : List Char) : Bool :=
  M.isPrefixOf cs && prev != some '>' &&
    (match cs.drop M.length with
     | [] => true
     | c :: _ => c != '<')

/-- Scanner for JavaScript `s.replace(regex, repl)` with the global guarded
regex built from a nonempty literal `M`: every guarded occurrence is
replaced, scanning resumes after the consumed text, and lookbehind always
refers to the original string (tracked in `prev`).  `fuel` is an upper
bound on the number of scan steps; callers pass the string length, which
suffices because each step consumes at least one character. -/
def replaceGoNE (M repl : List Char) : Nat → Option Char → List Char → List Char
  | _, _, [] => []
  | 0, _, cs => cs
  | fuel + 1, prev, c :: cs =>
    if matchGuardOk prev M (c :: cs) then
      repl ++ replaceGoNE M repl fuel (some (M.getLastD c)) ((c :: cs).drop M.length)
    else
      c :: replaceGoNE M repl fuel (some c) cs

/-- Scanner for the same replace when the literal is empty: the regex
`(?<!>)(?!<)` matches the empty string at every position whose previous
character is not `>` and whose next character is not `<`; JavaScript
advances one character after each empty match. -/
def replaceGoEmpty (repl : List Char) : Option Char → List Char → List Char
  | prev, [] => if prev != some '>' then repl else []
  | prev, c :: cs =>
    (if prev != some '>' && c != '<' then repl else []) ++
      c :: replaceGoEmpty repl (some c) cs

/-- JavaScript
the global replace over the guarded regex built by concatenating the
lookbehind `(?<!>)`, `escapeRegex(M)` and the lookahead `(?!<)`,
the replacement primitive of `editorHtmlWithHighlights`
(`App.tsx` lines 160-170). -/
def jsReplaceGuardedAll (s M repl : String) : String :=
  if M.toList = [] then ⟨replaceGoEmpty repl.toList none s.toList⟩
  else ⟨replaceGoNE M.toList repl.toList s.toList.length none s.toList⟩

/-- Scanner for JavaScript `s.replace(pat, repl)` with a literal string
pattern: only the first occurrence is replaced; if the pattern does not
occur the string is returned unchanged. -/
def replaceFirstGo (pat repl : List Char) (cs : List Char) : List Char :=
  if pat.isPrefixOf cs then repl ++ cs.drop pat.length
  else
    match cs with
    | [] => []
    | c :: cs' => c :: replaceFirstGo pat repl cs'

/-- JavaScript `s.replace(pat, repl)` with a string pattern, used by the
four resolution handlers (`App.tsx` lines 108, 119, 130, 141). -/
def jsReplaceFirst (s pat repl : String) : String :=
  ⟨replaceFirstGo pat.toList repl.toList s.toList⟩

/-- `editorHtmlWithHighlights` (`App.tsx` lines 154-173): if both edit sets
are empty the stored `editorContent` is returned unchanged; otherwise the
overlay markup is rebuilt from the plain-text projection
(the editor innerText, or the empty string when the ref is unset),
wrapping grammar errors first and
style suggestions second with the guarded global replace. -/
def editorHtmlWithHighlights (editorContent plainText : String)
    (suggestions : List Suggestion) (grammarErrors : List GrammarError) : String :=
  if suggestions.length = 0 ∧ grammarErrors.length = 0 then editorContent
  else
    let afterGrammar := grammarErrors.foldl
      (fun acc e => jsReplaceGuardedAll acc e.errorText (grammarSpan e)) plainText
    suggestions.foldl
      (fun acc s => jsReplaceGuardedAll acc s.originalText (suggestionSpan s)) afterGrammar

/-- `applySuggestion` (`App.tsx` lines 106-115): replace the first
occurrence of the bare suggestion markup by the suggested text and drop
the suggestion from the edit set. -/
def applySuggestion (content : String) (suggestions : List Suggestion)
    (s : Suggestion) : String × List Suggestion :=
  (jsReplaceFirst content (suggestionMarkup s) s.suggestedText,
   suggestions.filter (fun x => x.id ≠ s.id))

/-- `rejectSuggestion` (`App.tsx` lines 117-126): replace the first
occurrence of the bare suggestion markup by the original text and drop the
suggestion from the edit set. -/
def rejectSuggestion (content : String) (suggestions : List Suggestion)
    (s : Suggestion) : String × List Suggestion :=
  (jsReplaceFirst content (suggestionMarkup s) s.originalText,
   suggestions.filter (fun x => x.id ≠ s.id))

/-- `applyCorrection` (`App.tsx` lines 128-137): replace the first
occurrence of the bare correction markup by the correction and drop the
error from the edit set. -/
def applyCorrection (content : String) (grammarErrors : List GrammarError)
    (e : GrammarError) : String × List GrammarError :=
  (jsReplaceFirst content (correctionMarkup e) e.correction,
   grammarErrors.filter (fun x => x.id ≠ e.id))

/-- `rejectCorrection` (`App.tsx` lines 139-148): replace the first
occurrence of the bare correction markup by the original error text and
drop the error from the edit set. -/
def rejectCorrection (content : String) (grammarErrors : List GrammarError)
    (e : GrammarError) : String × List GrammarError :=
  (jsReplaceFirst content (correctionMarkup e) e.errorText,
   grammarErrors.filter (fun x => x.id ≠ e.id))

/-- `generateInitialText` (service module lines 20-41): the response text on
success, a fixed placeholder string when the call throws. -/
def generateInitialText (outcome : Except Unit String) : String :=
  match outcome with
  | .ok t => t
  | .error _ => "An error occurred while generating text. Please try again."

/-- `rewriteSelection` (service module lines 43-58): the trimmed response
text on success, the original selected text when the call throws. -/
def rewriteSelection (selectedText : String) (outcome : Except Unit String) : String :=
  match outcome with
  | .ok t => jsTrim t
  | .error _ => selectedText

/-- `getSuggestions` (service module lines 60-103): empty below the 50
character (trimmed) threshold; otherwise the parsed response with fresh
ids, and empty on a thrown call or an unparsable response. -/
def getSuggestions (fullText : String) (outcome : Except Unit String)
    (parse : String → Option (List RawSuggestion)) (ids : Nat → String) :
    List Suggestion :=
  if (jsTrim fullText).length < 50 then []
  else
    match outcome with
    | .error _ => []
    | .ok txt =>
      match parse (jsTrim txt) with
      | none => []
      | some raws => raws.enum.map (fun p => ⟨p.2.originalText, p.2.suggestedText, ids p.1⟩)

/-- `checkGrammarAndSpelling` (service module lines 105-150): empty below
the 10 character (trimmed) threshold; otherwise the parsed response with
fresh ids, and empty on a thrown call or an unparsable response. -/
def checkGrammarAndSpelling (fullText : String) (outcome : Except Unit String)
    (parse : String → Option (List RawGrammarError)) (ids : Nat → String) :
    List GrammarError :=
  if (jsTrim fullText).length < 10 then []
  else
    match outcome with
    | .error _ => []
    | .ok txt =>
      match parse (jsTrim txt) with
      | none => []
      | some raws =>
        raws.enum.map (fun p => ⟨p.2.errorText, p.2.correction, p.2.explanation, ids p.1⟩)

/-- The body of the debounced timer armed by `handleContentChange`
(`App.tsx` lines 96-103): the grammar service runs only when the trimmed
plain text is longer than 10 characters, in which case its result replaces
the grammar-error edit set; otherwise the previous set is left as is. -/
def grammarTimerFire (plainText : String) (outcome : Except Unit String)
    (parse : String → Option (List RawGrammarError)) (ids : Nat → String)
    (prevErrors : List GrammarError) : List GrammarError :=
  if (jsTrim plainText).length > 10 then
    checkGrammarAndSpelling plainText outcome parse ids
  else prevErrors

/-- A captured document selection: the document text split at the live
range boundaries (`before ++ selected ++ after` is the whole text). -/
structure DocSelection where
  before : String
  selected : String
  after : String
deriving DecidableEq, Repr

/-- The text captured with the selection by `handleMouseUp`
(`App.tsx` line 68): `currentSelection.toString().trim()`. -/
def selectionText (sel : DocSelection) : String := jsTrim sel.selected

/-- `handleRewrite` (`App.tsx` lines 42-62): the rewrite service is called
with the captured (trimmed) selection text, then the range contents are
deleted and the returned text is inserted at that position —
unconditionally, whether the service succeeded or failed. -/
def handleRewrite (sel : DocSelection) (outcome : Except Unit String) : String :=
  sel.before ++ rewriteSelection (selectionText sel) outcome ++ sel.after

/-- Modelled from the spec: "stripping all overlay markup" — the source has
no strip function, so the round-trip phrase of the spec is formalised as
removal of every `<`…`>` tag region.  The flag records whether the scanner
is currently inside a tag. -/
def stripTagsGo : Bool → List Char → List Char
  | _, [] => []
  | false, c :: cs => if c = '<' then stripTagsGo true cs else c :: stripTagsGo false cs
  | true, c :: cs => if c = '>' then stripTagsGo false cs else stripTagsGo true cs

/-- String-level wrapper for `stripTagsGo`. -/
def stripAllTags (s : String) : String := ⟨stripTagsGo false s.toList⟩

/-- Number of (possibly overlapping) occurrences of `pat` in a character
list; used to count overlay spans and quote characters in rendered
markup. -/
def countOcc (pat : List Char) : List Char → Nat
  | [] => 0
  | c :: cs => (if pat.isPrefixOf (c :: cs) then 1 else 0) + countOcc pat cs

/-- Boolean substring test, used to state that rendered markup carries a
given attribute fragment. -/
def occursIn (pat : List Char) : List Char → Bool
  | [] => pat.isEmpty
  | c :: cs => pat.isPrefixOf (c :: cs) || occursIn pat cs

/-- The shape produced by the empty-pattern global replace on text free of
markup: the replacement inserted at every position, the original
characters preserved in between. -/
def emptyPatternExpansion (G : List Char) : List Char → List Char
  | [] => G
  | c :: cs => G ++ c :: emptyPatternExpansion G cs

end MagicWriter

namespace MagicWriter

theorem toList_append (a b : String) : (a ++ b).toList = a.toList ++ b.toList := by
  cases a
  cases b
  rfl

theorem mk_toList (s : String) : String.mk s.toList = s := rfl

theorem isPrefixOf_append_self (l t : List Char) : l.isPrefixOf (l ++ t) = true := by
  induction l with
  | nil => simp [List.isPrefixOf]
  | cons a as ih => simp [List.cons_append, List.isPrefixOf, ih]

theorem isPrefixOf_self (l : List Char) : l.isPrefixOf l = true := by
  have h := isPrefixOf_append_self l []
  rwa [List.append_nil] at h

theorem append_drop_of_isPrefixOf {l cs : List Char} (h : l.isPrefixOf cs = true) :
    l ++ cs.drop l.length = cs := by
  induction l generalizing cs with
  | nil => simp
  | cons a as ih =>
    cases cs with
    | nil => simp [List.isPrefixOf] at h
    | cons c cs' =>
      simp only [List.isPrefixOf, Bool.and_eq_true, beq_iff_eq] at h
      obtain ⟨rfl, h2⟩ := h
      simp [ih h2]

end MagicWriter

namespace MagicWriter

theorem replaceGoNE_fuel (M repl : List Char) (hM : M ≠ []) :
    ∀ (f₁ f₂ : Nat) (prev : Option Char) (cs : List Char),
      cs.length ≤ f₁ → cs.length ≤ f₂ →
      replaceGoNE M repl f₁ prev cs = replaceGoNE M repl f₂ prev cs := by
  intro f₁
  induction f₁ with
  | zero =>
    intro f₂ prev cs h1 _
    have hcs : cs = [] := List.length_eq_zero.mp (Nat.le_zero.mp h1)
    subst hcs
    simp [replaceGoNE]
  | succ k ih =>
    intro f₂ prev cs h1 h2
    cases cs with
    | nil => simp [replaceGoNE]
    | cons c cs' =>
      cases f₂ with
      | zero => simp at h2
      | succ j =>
        have hM1 : 1 ≤ M.length := by
          cases M with
          | nil => exact absurd rfl hM
          | cons x xs => simp
        simp only [List.length_cons] at h1 h2
        simp only [replaceGoNE]
        by_cases hg : matchGuardOk prev M (c :: cs') = true
        · rw [if_pos hg, if_pos hg]
          congr 1
          apply ih
          · simp only [List.length_drop, List.length_cons]
            omega
          · simp only [List.length_drop, List.length_cons]
            omega
        · rw [if_neg hg, if_neg hg]
          congr 1
          apply ih
          · omega
          · omega

end MagicWriter

namespace MagicWriter

/-- C9: when both the style-suggestion edit set and the grammar-error edit
set are empty, rendering is the identity on the stored document content:
no overlay pass runs and the stored user markup is returned exactly. -/
theorem C9_empty_editsets_render_identity (content plainText : String) :
    editorHtmlWithHighlights content plainText [] [] = content := rfl

/-- C10: whenever at least one edit set is non-empty, the rendered markup
is computed from the plain-text projection alone; the stored markup
content does not influence the output (so any user markup held there is
absent from the result). -/
theorem C10_render_from_plaintext_only (c₁ c₂ plainText : String)
    (suggestions : List Suggestion) (grammarErrors : List GrammarError)
    (h : suggestions ≠ [] ∨ grammarErrors ≠ []) :
    editorHtmlWithHighlights c₁ plainText suggestions grammarErrors =
      editorHtmlWithHighlights c₂ plainText suggestions grammarErrors := by
  have hcond : ¬(suggestions.length = 0 ∧ grammarErrors.length = 0) := by
    rintro ⟨h1, h2⟩
    rcases h with h | h
    · exact h (List.length_eq_zero.mp h1)
    · exact h (List.length_eq_zero.mp h2)
  unfold editorHtmlWithHighlights
  rw [if_neg hcond, if_neg hcond]

theorem C10_witness :
    (([⟨"a", "b", "i"⟩] : List Suggestion) ≠ [] ∨ ([] : List GrammarError) ≠ []) ∧
    editorHtmlWithHighlights "<b>user markup</b>" "plain" [⟨"a", "b", "i"⟩] [] =
      editorHtmlWithHighlights "something else" "plain" [⟨"a", "b", "i"⟩] [] :=
  ⟨Or.inl (by decide),
   C10_render_from_plaintext_only "<b>user markup</b>" "something else" "plain"
     [⟨"a", "b", "i"⟩] [] (Or.inl (by decide))⟩

/-- C5: service-call failures recover locally: a failed generation returns
the fixed placeholder string, failed (or unparsable) suggestion and
grammar calls return the empty list, and a failed rewrite returns the
original selected text; all embedded service functions are total, so no
exception propagates. -/
theorem C5_service_failures_recover_locally (ft sel txt : String)
    (p : String → Option (List RawSuggestion))
    (pg : String → Option (List RawGrammarError)) (i : Nat → String) :
    generateInitialText (Except.error ()) =
      "An error occurred while generating text. Please try again."
    ∧ rewriteSelection sel (Except.error ()) = sel
    ∧ getSuggestions ft (Except.error ()) p i = []
    ∧ (p (jsTrim txt) = none → getSuggestions ft (Except.ok txt) p i = [])
    ∧ checkGrammarAndSpelling ft (Except.error ()) pg i = []
    ∧ (pg (jsTrim txt) = none → checkGrammarAndSpelling ft (Except.ok txt) pg i = []) := by
  refine ⟨rfl, rfl, ?_, ?_, ?_, ?_⟩
  · unfold getSuggestions
    split <;> rfl
  · intro h
    unfold getSuggestions
    split
    · rfl
    · simp [h]
  · unfold checkGrammarAndSpelling
    split <;> rfl
  · intro h
    unfold checkGrammarAndSpelling
    split
    · rfl
    · simp [h]

theorem C5_witness :
    ((fun _ => none : String → Option (List RawSuggestion)) (jsTrim "bad json") = none) ∧
    generateInitialText (Except.error ()) =
      "An error occurred while generating text. Please try again." ∧
    rewriteSelection " keep me " (Except.error ()) = " keep me " ∧
    getSuggestions "text" (Except.ok "bad json") (fun _ => none) (fun _ => "i") = [] :=
  ⟨rfl,
   (C5_service_failures_recover_locally "text" " keep me " "bad json"
      (fun _ => none) (fun _ => none) (fun _ => "i")).1,
   (C5_service_failures_recover_locally "text" " keep me " "bad json"
      (fun _ => none) (fun _ => none) (fun _ => "i")).2.1,
   (C5_service_failures_recover_locally "text" " keep me " "bad json"
      (fun _ => none) (fun _ => none) (fun _ => "i")).2.2.2.1 rfl⟩

/-- C4 counterexample: on service failure the document is mutated after
all — the range is spliced with the trimmed captured selection, so a
selection with surrounding whitespace does not survive a failed rewrite
byte-identically. -/
theorem C4_counterexample :
    handleRewrite ⟨"x", " ab ", "y"⟩ (Except.error ()) ≠ "x" ++ " ab " ++ "y" := by
  decide

/-- C4 (amended): on success the range contents are replaced by the
trimmed returned text; on failure the range is still spliced, inserting
the trimmed originally-captured selection, so the document is unchanged
exactly when the selected text equals its trimmed form. -/
theorem C4_rewrite_splices_unconditionally (sel : DocSelection) (t : String) (e : Unit) :
    handleRewrite sel (Except.ok t) = sel.before ++ jsTrim t ++ sel.after
    ∧ handleRewrite sel (Except.error e) = sel.before ++ jsTrim sel.selected ++ sel.after
    ∧ (jsTrim sel.selected = sel.selected →
        handleRewrite sel (Except.error e) = sel.before ++ sel.selected ++ sel.after) := by
  refine ⟨rfl, rfl, fun h => ?_⟩
  show sel.before ++ rewriteSelection (selectionText sel) (Except.error e) ++ sel.after = _
  rw [show rewriteSelection (selectionText sel) (Except.error e) = jsTrim sel.selected from rfl, h]

theorem C4_witness :
    (jsTrim "ab" = "ab") ∧
    handleRewrite ⟨"x", "ab", "y"⟩ (Except.ok " new ") = "x" ++ jsTrim " new " ++ "y" ∧
    handleRewrite ⟨"x", "ab", "y"⟩ (Except.error ()) = "x" ++ "ab" ++ "y" :=
  ⟨by decide,
   (C4_rewrite_splices_unconditionally ⟨"x", "ab", "y"⟩ " new " ()).1,
   (C4_rewrite_splices_unconditionally ⟨"x", "ab", "y"⟩ " new " ()).2.2 (by decide)⟩

/-- C1: evaluation at the failing input.  The rendered overlay carries a
`title` attribute, but the resolution handlers search for the markup
without it, so accepting leaves the document text unchanged (the
correction is never applied), rejecting leaves the overlay in place
(nothing is stripped), and only the edit-set removal takes effect. -/
theorem C1_resolution_never_edits_text :
    applyCorrection
        (editorHtmlWithHighlights "Teh cat" "Teh cat" [] [⟨"Teh", "The", "Spelling", "g1"⟩])
        [⟨"Teh", "The", "Spelling", "g1"⟩] ⟨"Teh", "The", "Spelling", "g1"⟩ =
      (editorHtmlWithHighlights "Teh cat" "Teh cat" [] [⟨"Teh", "The", "Spelling", "g1"⟩], [])
    ∧ rejectCorrection
        (editorHtmlWithHighlights "Teh cat" "Teh cat" [] [⟨"Teh", "The", "Spelling", "g1"⟩])
        [⟨"Teh", "The", "Spelling", "g1"⟩] ⟨"Teh", "The", "Spelling", "g1"⟩ =
      (editorHtmlWithHighlights "Teh cat" "Teh cat" [] [⟨"Teh", "The", "Spelling", "g1"⟩], [])
    ∧ occursIn (correctionMarkup ⟨"Teh", "The", "Spelling", "g1"⟩).toList
        (editorHtmlWithHighlights "Teh cat" "Teh cat" [] [⟨"Teh", "The", "Spelling", "g1"⟩]).toList
        = false
    ∧ applySuggestion
        (editorHtmlWithHighlights "vry good" "vry good" [⟨"vry", "very", "s1"⟩] [])
        [⟨"vry", "very", "s1"⟩] ⟨"vry", "very", "s1"⟩ =
      (editorHtmlWithHighlights "vry good" "vry good" [⟨"vry", "very", "s1"⟩] [], [])
    ∧ rejectSuggestion
        (editorHtmlWithHighlights "vry good" "vry good" [⟨"vry", "very", "s1"⟩] [])
        [⟨"vry", "very", "s1"⟩] ⟨"vry", "very", "s1"⟩ =
      (editorHtmlWithHighlights "vry good" "vry good" [⟨"vry", "very", "s1"⟩] [], [])
    ∧ occursIn (suggestionMarkup ⟨"vry", "very", "s1"⟩).toList
        (editorHtmlWithHighlights "vry good" "vry good" [⟨"vry", "very", "s1"⟩] []).toList
        = false := by
  decide

end MagicWriter

namespace MagicWriter

/-- C6 counterexample: a plain text of length exactly 50 (not exceeding
50) already triggers the style-suggestion service call — the result
incorporates the service response instead of being the empty no-op
result the claim requires below-or-at the threshold. -/
theorem C6_counterexample :
    (String.mk (List.replicate 50 'a')).length = 50
    ∧ getSuggestions (String.mk (List.replicate 50 'a')) (Except.ok "j")
        (fun _ => some [⟨"a", "b"⟩]) (fun _ => "i") ≠ [] := by
  decide

/-- C6 (amended): the style-suggestion service is called only when the
trimmed plain-text length is at least 50 (strictly below 50 it is a no-op
returning the empty list, for every outcome), and at 50 or more the
result does depend on the service outcome; the debounced grammar check
runs the grammar service only when the trimmed plain-text length exceeds
10, leaving the previous edit set untouched otherwise. -/
theorem C6_length_thresholds (ft pt txt : String) (o : Except Unit String)
    (pg : String → Option (List RawGrammarError)) (i : Nat → String)
    (prev : List GrammarError) :
    ((jsTrim ft).length < 50 →
      ∀ (p : String → Option (List RawSuggestion)) (o₂ : Except Unit String),
        getSuggestions ft o₂ p i = [])
    ∧ (50 ≤ (jsTrim ft).length →
        getSuggestions ft (Except.ok txt) (fun _ => some [⟨"a", "b"⟩]) i ≠
          getSuggestions ft (Except.error ()) (fun _ => some [⟨"a", "b"⟩]) i)
    ∧ ((jsTrim pt).length ≤ 10 → grammarTimerFire pt o pg i prev = prev) := by
  refine ⟨fun h p o₂ => ?_, fun h => ?_, fun h => ?_⟩
  · unfold getSuggestions
    rw [if_pos h]
  · unfold getSuggestions
    rw [if_neg (Nat.not_lt.mpr h), if_neg (Nat.not_lt.mpr h)]
    simp [List.enum]
  · unfold grammarTimerFire
    rw [if_neg (Nat.not_lt.mpr h)]

theorem C6_witness :
    ((jsTrim "short").length < 50 ∧ (jsTrim "tiny").length ≤ 10) ∧
    getSuggestions "short" (Except.ok "whatever") (fun _ => some [⟨"a", "b"⟩]) (fun _ => "i") = []
    ∧ grammarTimerFire "tiny" (Except.error ()) (fun _ => none) (fun _ => "i") [] = [] :=
  ⟨⟨by decide, by decide⟩,
   (C6_length_thresholds "short" "tiny" "whatever" (Except.error ()) (fun _ => none)
      (fun _ => "i") []).1 (by decide) (fun _ => some [⟨"a", "b"⟩]) (Except.ok "whatever"),
   (C6_length_thresholds "short" "tiny" "whatever" (Except.error ()) (fun _ => none)
      (fun _ => "i") []).2.2 (by decide)⟩

/-- C2 counterexample: with the global regex, rendering a single edit over
a text containing the match twice wraps both occurrences — the output
contains two overlay spans, not exactly one. -/
theorem C2_counterexample :
    countOcc "<span ".toList
      (editorHtmlWithHighlights "" "ab ab" [⟨"ab", "x", "i1"⟩] []).toList = 2 := by
  decide

/-- C3 counterexample: with a grammar error and a style suggestion whose
match texts are both literal substrings of the text, the suggestion pass
also matches inside the markup inserted by the grammar pass (the class
and id attributes contain the word being matched), so stripping all tag
regions from the rendered output does not restore the original text. -/
theorem C3_counterexample :
    stripAllTags
        (editorHtmlWithHighlights "" "error Teh" [⟨"error", "bug", "s"⟩]
          [⟨"Teh", "The", "Spelling", "g"⟩]) ≠ "error Teh" := by
  decide

/-- C7 counterexample: an edit with empty matchText is not skipped — the
empty-pattern global regex matches at every eligible position, so the
overlay span is inserted throughout and the rendered output differs from
the text. -/
theorem C7_counterexample :
    editorHtmlWithHighlights "ab" "ab" [] [⟨"", "x", "E", "g"⟩] ≠ "ab" := by
  decide

/-- C8 counterexample: the grammar overlay interpolates the explanation
into the `title` attribute without escaping, so an explanation containing
a double quote appears verbatim in the rendered markup and no `&quot;`
entity is produced. -/
theorem C8_counterexample :
    occursIn "title=\"say \"hi\"\"".toList
        (editorHtmlWithHighlights "" "Teh x" [] [⟨"Teh", "The", "say \"hi\"", "g"⟩]).toList
        = true
    ∧ occursIn "&quot;".toList
        (editorHtmlWithHighlights "" "Teh x" [] [⟨"Teh", "The", "say \"hi\"", "g"⟩]).toList
        = false := by
  decide

end MagicWriter

namespace MagicWriter

theorem replaceGoNE_nil (M repl : List Char) (f : Nat) (prev : Option Char) :
    replaceGoNE M repl f prev [] = [] := by
  cases f <;> rfl

theorem matchGuardOk_at_match (M t : List Char) (prev : Option Char)
    (hprev : prev ≠ some '>') (hnext : t.head? ≠ some '<') :
    matchGuardOk prev M (M ++ t) = true := by
  unfold matchGuardOk
  rw [isPrefixOf_append_self M t]
  have hd : List.drop M.length (M ++ t) = t := List.drop_left M t
  rw [hd]
  cases t with
  | nil => simp [bne_iff_ne, hprev]
  | cons d t' =>
    have hdne : d ≠ '<' := by
      intro h
      exact hnext (by rw [h]; rfl)
    simp [bne_iff_ne, hprev, hdne]

theorem matchGuardOk_not_matching (M cs : List Char) (prev : Option Char)
    (h : M.isPrefixOf cs = false) : matchGuardOk prev M cs = false := by
  unfold matchGuardOk
  rw [h]
  simp

theorem replaceGoNE_match_step (a : Char) (as repl t : List Char) (prev : Option Char)
    (hg : matchGuardOk prev (a :: as) ((a :: as) ++ t) = true) :
    replaceGoNE (a :: as) repl ((a :: as) ++ t).length prev ((a :: as) ++ t)
      = repl ++ replaceGoNE (a :: as) repl t.length (some ((a :: as).getLastD a)) t := by
  have hshape : (a :: as) ++ t = a :: (as ++ t) := rfl
  rw [hshape] at hg ⊢
  rw [List.length_cons]
  simp only [replaceGoNE]
  rw [if_pos hg]
  congr 1
  have hdrop : (a :: (as ++ t)).drop (a :: as).length = t := List.drop_left (a :: as) t
  rw [hdrop]
  apply replaceGoNE_fuel _ _ (by simp)
  · simp [List.length_append]
  · exact le_refl _

theorem replaceGoNE_nomatch_step (c : Char) (M repl cs : List Char) (prev : Option Char)
    (hg : matchGuardOk prev M (c :: cs) = false) :
    replaceGoNE M repl (c :: cs).length prev (c :: cs)
      = c :: replaceGoNE M repl cs.length (some c) cs := by
  rw [List.length_cons]
  simp only [replaceGoNE]
  have hne : ¬(matchGuardOk prev M (c :: cs) = true) := by
    rw [hg]
    exact Bool.false_ne_true
  rw [if_neg hne]

theorem replaceGoNE_two_occ (a : Char) (as Sl : List Char) (ha : a ≠ ' ') :
    replaceGoNE (a :: as) Sl ((a :: as) ++ ' ' :: (a :: as)).length none
        ((a :: as) ++ ' ' :: (a :: as)) = Sl ++ ' ' :: Sl := by
  rw [replaceGoNE_match_step a as Sl (' ' :: (a :: as)) none
      (matchGuardOk_at_match (a :: as) (' ' :: (a :: as)) none (by simp) (by simp))]
  have hnp : (a :: as).isPrefixOf (' ' :: (a :: as)) = false := by
    have hb : (a == ' ') = false := beq_eq_false_iff_ne.mpr ha
    simp [List.isPrefixOf, hb]
  rw [replaceGoNE_nomatch_step ' ' (a :: as) Sl (a :: as) (some ((a :: as).getLastD a))
      (matchGuardOk_not_matching _ _ _ hnp)]
  have hg3 : matchGuardOk (some ' ') (a :: as) ((a :: as) ++ []) = true :=
    matchGuardOk_at_match (a :: as) [] (some ' ') (by simp) (by simp)
  have e3 : replaceGoNE (a :: as) Sl (a :: as).length (some ' ') (a :: as)
      = Sl ++ replaceGoNE (a :: as) Sl ([] : List Char).length (some ((a :: as).getLastD a)) [] := by
    have h := replaceGoNE_match_step a as Sl [] (some ' ') hg3
    rw [List.append_nil] at h
    exact h
  rw [e3, replaceGoNE_nil]
  simp

/-- C2 (amended): the global regex wraps every eligible occurrence, not
only the first: rendering a single edit whose matchText `M` occurs twice
(space-separated, `M` nonempty and space-free) wraps both occurrences
with an overlay span. -/
theorem C2_render_wraps_every_occurrence (M stext sid content : String)
    (hM : M.toList ≠ []) (hsp : ' ' ∉ M.toList) :
    editorHtmlWithHighlights content (M ++ " " ++ M) [⟨M, stext, sid⟩] [] =
      suggestionSpan ⟨M, stext, sid⟩ ++ " " ++ suggestionSpan ⟨M, stext, sid⟩ := by
  obtain ⟨a, as, hMl⟩ : ∃ x xs, M.toList = x :: xs := by
    cases hc : M.toList with
    | nil => exact absurd hc hM
    | cons x xs => exact ⟨x, xs, rfl⟩
  have ha : a ≠ ' ' := fun h => hsp (by rw [hMl, h]; exact List.mem_cons_self _ _)
  unfold editorHtmlWithHighlights
  rw [if_neg (by simp)]
  show jsReplaceGuardedAll (M ++ " " ++ M) M (suggestionSpan ⟨M, stext, sid⟩) =
      suggestionSpan ⟨M, stext, sid⟩ ++ " " ++ suggestionSpan ⟨M, stext, sid⟩
  unfold jsReplaceGuardedAll
  rw [if_neg hM]
  have htl : (M ++ " " ++ M).toList = (a :: as) ++ ' ' :: (a :: as) := by
    rw [toList_append, toList_append, hMl, List.append_assoc]
    rfl
  rw [hMl, htl]
  have hR : suggestionSpan ⟨M, stext, sid⟩ ++ " " ++ suggestionSpan ⟨M, stext, sid⟩
      = String.mk ((suggestionSpan ⟨M, stext, sid⟩).toList ++
          ' ' :: (suggestionSpan ⟨M, stext, sid⟩).toList) := by
    rw [← mk_toList (suggestionSpan ⟨M, stext, sid⟩ ++ " " ++ suggestionSpan ⟨M, stext, sid⟩),
        toList_append, toList_append, List.append_assoc]
    rfl
  rw [hR]
  exact congrArg String.mk (replaceGoNE_two_occ a as _ ha)

theorem C2_witness :
    ("ab".toList ≠ [] ∧ ' ' ∉ "ab".toList) ∧
    editorHtmlWithHighlights "" ("ab" ++ " " ++ "ab") [⟨"ab", "x", "i1"⟩] [] =
      suggestionSpan ⟨"ab", "x", "i1"⟩ ++ " " ++ suggestionSpan ⟨"ab", "x", "i1"⟩ :=
  ⟨⟨by decide, by decide⟩,
   C2_render_wraps_every_occurrence "ab" "x" "i1" "" (by decide) (by decide)⟩

end MagicWriter

namespace MagicWriter

theorem replaceGoEmpty_clean (G : List Char) :
    ∀ (prev : Option Char) (cs : List Char),
      (∀ c ∈ cs, c ≠ '<' ∧ c ≠ '>') → prev ≠ some '>' →
      replaceGoEmpty G prev cs = emptyPatternExpansion G cs := by
  intro prev cs
  induction cs generalizing prev with
  | nil =>
    intro _ hprev
    simp [replaceGoEmpty, emptyPatternExpansion, bne_iff_ne, hprev]
  | cons c cs' ih =>
    intro hclean hprev
    have hc := hclean c (List.mem_cons_self _ _)
    have hcond : (prev != some '>' && (c != '<')) = true := by
      simp [bne_iff_ne, hprev, hc.1]
    have hrec := ih (some c) (fun x hx => hclean x (List.mem_cons_of_mem _ hx))
      (fun hsc => hc.2 (Option.some.inj hsc))
    simp only [replaceGoEmpty, emptyPatternExpansion, hcond, if_true]
    rw [hrec]

/-- C7 (amended): an edit whose matchText is empty is not skipped — the
empty-pattern regex matches the empty string at every position of
markup-free text, so the overlay span (with empty body) is inserted at
every position, before, between and after the characters. -/
theorem C7_empty_matchText_expands_everywhere (content text : String) (e : GrammarError)
    (hempty : e.errorText = "")
    (htext : ∀ c ∈ text.toList, c ≠ '<' ∧ c ≠ '>') :
    editorHtmlWithHighlights content text [] [e] =
      String.mk (emptyPatternExpansion (grammarSpan e).toList text.toList) := by
  unfold editorHtmlWithHighlights
  rw [if_neg (by simp)]
  show jsReplaceGuardedAll text e.errorText (grammarSpan e) = _
  unfold jsReplaceGuardedAll
  rw [hempty]
  rw [if_pos (show ("" : String).toList = [] from rfl)]
  exact congrArg String.mk (replaceGoEmpty_clean _ none _ htext (by simp))

theorem C7_witness :
    ((⟨"", "x", "E", "g"⟩ : GrammarError).errorText = ""
      ∧ ∀ c ∈ "ab".toList, c ≠ '<' ∧ c ≠ '>') ∧
    editorHtmlWithHighlights "ab" "ab" [] [⟨"", "x", "E", "g"⟩] =
      String.mk (emptyPatternExpansion (grammarSpan ⟨"", "x", "E", "g"⟩).toList "ab".toList) :=
  ⟨⟨rfl, by decide⟩,
   C7_empty_matchText_expands_everywhere "ab" "ab" ⟨"", "x", "E", "g"⟩ rfl (by decide)⟩

theorem stripTagsGo_nil (b : Bool) : stripTagsGo b [] = [] := by
  cases b <;> rfl

theorem stripTagsGo_skip (inner rest : List Char) (h : '>' ∉ inner) :
    stripTagsGo true (inner ++ '>' :: rest) = stripTagsGo false rest := by
  induction inner with
  | nil => simp [stripTagsGo]
  | cons c cs ih =>
    simp only [List.cons_append, stripTagsGo]
    rw [if_neg (fun hc => h (by rw [← hc]; exact List.mem_cons_self c cs))]
    exact ih (fun hm => h (List.mem_cons_of_mem _ hm))

theorem stripTagsGo_clean_append (cs rest : List Char) (h : ∀ c ∈ cs, c ≠ '<') :
    stripTagsGo false (cs ++ rest) = cs ++ stripTagsGo false rest := by
  induction cs with
  | nil => simp
  | cons c cs' ih =>
    simp only [List.cons_append, stripTagsGo]
    rw [if_neg (h c (List.mem_cons_self c cs'))]
    exact congrArg (fun l => c :: l) (ih (fun x hx => h x (List.mem_cons_of_mem _ hx)))

theorem stripTagsGo_clean (cs : List Char) (h : ∀ c ∈ cs, c ≠ '<') :
    stripTagsGo false cs = cs := by
  have h2 := stripTagsGo_clean_append cs [] h
  rw [List.append_nil] at h2
  rw [h2, stripTagsGo_nil, List.append_nil]

theorem stripTagsGo_tag (inner body rest : List Char)
    (hinner : '>' ∉ inner) (hbody : ∀ c ∈ body, c ≠ '<') :
    stripTagsGo false
        ('<' :: (inner ++ '>' :: (body ++ '<' :: ('/' :: 's' :: 'p' :: 'a' :: 'n' :: ('>' :: rest)))))
      = body ++ stripTagsGo false rest := by
  have h1 : stripTagsGo false
        ('<' :: (inner ++ '>' :: (body ++ '<' :: ('/' :: 's' :: 'p' :: 'a' :: 'n' :: ('>' :: rest)))))
      = stripTagsGo true (inner ++ '>' :: (body ++ '<' :: ('/' :: 's' :: 'p' :: 'a' :: 'n' :: ('>' :: rest)))) := by
    simp [stripTagsGo]
  rw [h1, stripTagsGo_skip _ _ hinner, stripTagsGo_clean_append _ _ hbody]
  congr 1

end MagicWriter

namespace MagicWriter

theorem escapeQuotesL_angle_free (l : List Char) (h : ∀ c ∈ l, c ≠ '<' ∧ c ≠ '>') :
    ∀ c ∈ escapeQuotesL l, c ≠ '<' ∧ c ≠ '>' := by
  induction l with
  | nil =>
    intro c hc
    simp [escapeQuotesL] at hc
  | cons x xs ih =>
    intro c hc
    simp only [escapeQuotesL, List.mem_append] at hc
    rcases hc with hc | hc
    · by_cases hx : x = '"'
      · rw [if_pos hx] at hc
        have hq : ∀ d ∈ "&quot;".toList, d ≠ '<' ∧ d ≠ '>' := by decide
        exact hq c hc
      · rw [if_neg hx] at hc
        have hcx : c = x := by simpa using hc
        rw [hcx]
        exact h x (List.mem_cons_self _ _)
    · exact ih (fun d hd => h d (List.mem_cons_of_mem _ hd)) c hc

theorem strip_suggestionSpan_append (s : Suggestion) (rest : List Char)
    (hid : ∀ c ∈ s.id.toList, c ≠ '<' ∧ c ≠ '>')
    (hesc : ∀ c ∈ (escapeQuotes s.suggestedText).toList, c ≠ '<' ∧ c ≠ '>')
    (horig : ∀ c ∈ s.originalText.toList, c ≠ '<') :
    stripTagsGo false ((suggestionSpan s).toList ++ rest)
      = s.originalText.toList ++ stripTagsGo false rest := by
  have hsplit : (suggestionSpan s).toList ++ rest =
      '<' :: (("span class=\"suggestion-underline\" id=\"suggestion-".toList ++
          (s.id.toList ++ ("\" title=\"Suggested change: ".toList ++
          ((escapeQuotes s.suggestedText).toList ++ ['"'])))) ++
        '>' :: (s.originalText.toList ++
          '<' :: ('/' :: 's' :: 'p' :: 'a' :: 'n' :: ('>' :: rest)))) := by
    have l1 : "<span class=\"suggestion-underline\" id=\"suggestion-".toList
        = '<' :: "span class=\"suggestion-underline\" id=\"suggestion-".toList := rfl
    have l2 : "\">".toList = ['"', '>'] := rfl
    have l3 : "</span>".toList = ['<', '/', 's', 'p', 'a', 'n', '>'] := rfl
    simp only [suggestionSpan, toList_append, l1, l2, l3, List.cons_append,
      List.append_assoc, List.nil_append, List.singleton_append]
  rw [hsplit]
  refine stripTagsGo_tag _ _ _ ?_ horig
  intro hmem
  simp only [List.mem_append, List.mem_singleton] at hmem
  rcases hmem with hm | hm | hm | hm | hm
  · exact absurd hm (by decide)
  · exact (hid '>' hm).2 rfl
  · exact absurd hm (by decide)
  · exact (hesc '>' hm).2 rfl
  · exact absurd hm (by decide)

end MagicWriter

namespace MagicWriter

theorem strip_render_single_suggestion (s : Suggestion)
    (hid : ∀ c ∈ s.id.toList, c ≠ '<' ∧ c ≠ '>')
    (hesc : ∀ c ∈ (escapeQuotes s.suggestedText).toList, c ≠ '<' ∧ c ≠ '>') :
    ∀ (fuel : Nat) (prev : Option Char) (cs : List Char),
      (∀ c ∈ cs, c ≠ '<' ∧ c ≠ '>') →
      stripTagsGo false
          (replaceGoNE s.originalText.toList (suggestionSpan s).toList fuel prev cs) = cs := by
  intro fuel
  induction fuel with
  | zero =>
    intro prev cs hclean
    cases cs with
    | nil => rfl
    | cons c cs' =>
      have h0 : replaceGoNE s.originalText.toList (suggestionSpan s).toList 0 prev (c :: cs')
          = c :: cs' := rfl
      rw [h0]
      exact stripTagsGo_clean _ (fun x hx => (hclean x hx).1)
  | succ f ih =>
    intro prev cs hclean
    cases cs with
    | nil => rfl
    | cons c cs' =>
      by_cases hg : matchGuardOk prev s.originalText.toList (c :: cs') = true
      · have hstep : replaceGoNE s.originalText.toList (suggestionSpan s).toList (f + 1) prev (c :: cs')
            = (suggestionSpan s).toList ++
                replaceGoNE s.originalText.toList (suggestionSpan s).toList f
                  (some (s.originalText.toList.getLastD c))
                  ((c :: cs').drop s.originalText.toList.length) := by
          simp only [replaceGoNE]
          rw [if_pos hg]
        rw [hstep]
        have hpre : s.originalText.toList.isPrefixOf (c :: cs') = true := by
          unfold matchGuardOk at hg
          simp only [Bool.and_eq_true] at hg
          exact hg.1.1
        have hdec : s.originalText.toList ++ (c :: cs').drop s.originalText.toList.length
            = c :: cs' := append_drop_of_isPrefixOf hpre
        have hdropclean : ∀ x ∈ (c :: cs').drop s.originalText.toList.length, x ≠ '<' ∧ x ≠ '>' :=
          fun x hx => hclean x (List.drop_subset _ _ hx)
        have horig : ∀ x ∈ s.originalText.toList, x ≠ '<' := by
          intro x hx
          have hxin : x ∈ c :: cs' := by
            rw [← hdec]
            exact List.mem_append_left _ hx
          exact (hclean x hxin).1
        rw [strip_suggestionSpan_append s _ hid hesc horig]
        rw [ih _ _ hdropclean]
        exact hdec
      · have hstep : replaceGoNE s.originalText.toList (suggestionSpan s).toList (f + 1) prev (c :: cs')
            = c :: replaceGoNE s.originalText.toList (suggestionSpan s).toList f (some c) cs' := by
          simp only [replaceGoNE]
          rw [if_neg hg]
        rw [hstep]
        have hc := hclean c (List.mem_cons_self _ _)
        have hs : stripTagsGo false
              (c :: replaceGoNE s.originalText.toList (suggestionSpan s).toList f (some c) cs')
            = c :: stripTagsGo false
                (replaceGoNE s.originalText.toList (suggestionSpan s).toList f (some c) cs') := by
          simp only [stripTagsGo]
          rw [if_neg hc.1]
        rw [hs, ih _ _ (fun x hx => hclean x (List.mem_cons_of_mem _ hx))]

theorem strip_grammarSpan_append (e : GrammarError) (rest : List Char)
    (hid : ∀ c ∈ e.id.toList, c ≠ '<' ∧ c ≠ '>')
    (hexpl : ∀ c ∈ e.explanation.toList, c ≠ '<' ∧ c ≠ '>')
    (herr : ∀ c ∈ e.errorText.toList, c ≠ '<') :
    stripTagsGo false ((grammarSpan e).toList ++ rest)
      = e.errorText.toList ++ stripTagsGo false rest := by
  have hsplit : (grammarSpan e).toList ++ rest =
      '<' :: (("span class=\"grammar-error-underline\" id=\"error-".toList ++
          (e.id.toList ++ ("\" title=\"".toList ++
          (e.explanation.toList ++ ['"'])))) ++
        '>' :: (e.errorText.toList ++
          '<' :: ('/' :: 's' :: 'p' :: 'a' :: 'n' :: ('>' :: rest)))) := by
    have l1 : "<span class=\"grammar-error-underline\" id=\"error-".toList
        = '<' :: "span class=\"grammar-error-underline\" id=\"error-".toList := rfl
    have l2 : "\">".toList = ['"', '>'] := rfl
    have l3 : "</span>".toList = ['<', '/', 's', 'p', 'a', 'n', '>'] := rfl
    simp only [grammarSpan, toList_append, l1, l2, l3, List.cons_append,
      List.append_assoc, List.nil_append, List.singleton_append]
  rw [hsplit]
  refine stripTagsGo_tag _ _ _ ?_ herr
  intro hmem
  simp only [List.mem_append, List.mem_singleton] at hmem
  rcases hmem with hm | hm | hm | hm | hm
  · exact absurd hm (by decide)
  · exact (hid '>' hm).2 rfl
  · exact absurd hm (by decide)
  · exact (hexpl '>' hm).2 rfl
  · exact absurd hm (by decide)

theorem strip_render_single_grammar (e : GrammarError)
    (hid : ∀ c ∈ e.id.toList, c ≠ '<' ∧ c ≠ '>')
    (hexpl : ∀ c ∈ e.explanation.toList, c ≠ '<' ∧ c ≠ '>') :
    ∀ (fuel : Nat) (prev : Option Char) (cs : List Char),
      (∀ c ∈ cs, c ≠ '<' ∧ c ≠ '>') →
      stripTagsGo false
          (replaceGoNE e.errorText.toList (grammarSpan e).toList fuel prev cs) = cs := by
  intro fuel
  induction fuel with
  | zero =>
    intro prev cs hclean
    cases cs with
    | nil => rfl
    | cons c cs' =>
      have h0 : replaceGoNE e.errorText.toList (grammarSpan e).toList 0 prev (c :: cs')
          = c :: cs' := rfl
      rw [h0]
      exact stripTagsGo_clean _ (fun x hx => (hclean x hx).1)
  | succ f ih =>
    intro prev cs hclean
    cases cs with
    | nil => rfl
    | cons c cs' =>
      by_cases hg : matchGuardOk prev e.errorText.toList (c :: cs') = true
      · have hstep : replaceGoNE e.errorText.toList (grammarSpan e).toList (f + 1) prev (c :: cs')
            = (grammarSpan e).toList ++
                replaceGoNE e.errorText.toList (grammarSpan e).toList f
                  (some (e.errorText.toList.getLastD c))
                  ((c :: cs').drop e.errorText.toList.length) := by
          simp only [replaceGoNE]
          rw [if_pos hg]
        rw [hstep]
        have hpre : e.errorText.toList.isPrefixOf (c :: cs') = true := by
          unfold matchGuardOk at hg
          simp only [Bool.and_eq_true] at hg
          exact hg.1.1
        have hdec : e.errorText.toList ++ (c :: cs').drop e.errorText.toList.length
            = c :: cs' := append_drop_of_isPrefixOf hpre
        have hdropclean : ∀ x ∈ (c :: cs').drop e.errorText.toList.length, x ≠ '<' ∧ x ≠ '>' :=
          fun x hx => hclean x (List.drop_subset _ _ hx)
        have herr : ∀ x ∈ e.errorText.toList, x ≠ '<' := by
          intro x hx
          have hxin : x ∈ c :: cs' := by
            rw [← hdec]
            exact List.mem_append_left _ hx
          exact (hclean x hxin).1
        rw [strip_grammarSpan_append e _ hid hexpl herr]
        rw [ih _ _ hdropclean]
        exact hdec
      · have hstep : replaceGoNE e.errorText.toList (grammarSpan e).toList (f + 1) prev (c :: cs')
            = c :: replaceGoNE e.errorText.toList (grammarSpan e).toList f (some c) cs' := by
          simp only [replaceGoNE]
          rw [if_neg hg]
        rw [hstep]
        have hc := hclean c (List.mem_cons_self _ _)
        have hs : stripTagsGo false
              (c :: replaceGoNE e.errorText.toList (grammarSpan e).toList f (some c) cs')
            = c :: stripTagsGo false
                (replaceGoNE e.errorText.toList (grammarSpan e).toList f (some c) cs') := by
          simp only [stripTagsGo]
          rw [if_neg hc.1]
        rw [hs, ih _ _ (fun x hx => hclean x (List.mem_cons_of_mem _ hx))]

/-- C3 (amended): render-then-strip is the identity for a single-edit set
of either kind, provided the matchText is nonempty and the text together
with every field interpolated into the overlay markup — the edit id, the
suggested text of a style edit, the explanation of a grammar edit — is
free of angle brackets.  (Outside these conditions the round trip fails:
with several edits a later pass may match inside markup inserted by an
earlier one, as the counterexample shows, and an angle bracket in an
interpolated field corrupts the tag structure.) -/
theorem C3_roundtrip_single_edit (content T : String) (s : Suggestion) (e : GrammarError)
    (hT : ∀ c ∈ T.toList, c ≠ '<' ∧ c ≠ '>')
    (hsM : s.originalText.toList ≠ [])
    (hsid : ∀ c ∈ s.id.toList, c ≠ '<' ∧ c ≠ '>')
    (hsug : ∀ c ∈ s.suggestedText.toList, c ≠ '<' ∧ c ≠ '>')
    (heM : e.errorText.toList ≠ [])
    (heid : ∀ c ∈ e.id.toList, c ≠ '<' ∧ c ≠ '>')
    (hexpl : ∀ c ∈ e.explanation.toList, c ≠ '<' ∧ c ≠ '>') :
    stripAllTags (editorHtmlWithHighlights content T [s] []) = T
    ∧ stripAllTags (editorHtmlWithHighlights content T [] [e]) = T := by
  constructor
  · have hesc : ∀ c ∈ (escapeQuotes s.suggestedText).toList, c ≠ '<' ∧ c ≠ '>' :=
      escapeQuotesL_angle_free _ hsug
    unfold editorHtmlWithHighlights
    rw [if_neg (by simp)]
    show stripAllTags (jsReplaceGuardedAll T s.originalText (suggestionSpan s)) = T
    unfold jsReplaceGuardedAll
    rw [if_neg hsM]
    show String.mk (stripTagsGo false
        (replaceGoNE s.originalText.toList (suggestionSpan s).toList T.toList.length none T.toList)) = T
    rw [strip_render_single_suggestion s hsid hesc T.toList.length none T.toList hT]
    exact mk_toList T
  · unfold editorHtmlWithHighlights
    rw [if_neg (by simp)]
    show stripAllTags (jsReplaceGuardedAll T e.errorText (grammarSpan e)) = T
    unfold jsReplaceGuardedAll
    rw [if_neg heM]
    show String.mk (stripTagsGo false
        (replaceGoNE e.errorText.toList (grammarSpan e).toList T.toList.length none T.toList)) = T
    rw [strip_render_single_grammar e heid hexpl T.toList.length none T.toList hT]
    exact mk_toList T

theorem C3_witness :
    ((∀ c ∈ ("Teh cat" : String).toList, c ≠ '<' ∧ c ≠ '>')
      ∧ ("vry" : String).toList ≠ []
      ∧ (∀ c ∈ ("s1" : String).toList, c ≠ '<' ∧ c ≠ '>')
      ∧ (∀ c ∈ ("very" : String).toList, c ≠ '<' ∧ c ≠ '>')
      ∧ ("Teh" : String).toList ≠ []
      ∧ (∀ c ∈ ("g1" : String).toList, c ≠ '<' ∧ c ≠ '>')
      ∧ (∀ c ∈ ("Spelling" : String).toList, c ≠ '<' ∧ c ≠ '>')) ∧
    stripAllTags (editorHtmlWithHighlights "" "Teh cat" [⟨"vry", "very", "s1"⟩] []) = "Teh cat"
    ∧ stripAllTags
        (editorHtmlWithHighlights "" "Teh cat" [] [⟨"Teh", "The", "Spelling", "g1"⟩]) = "Teh cat" :=
  ⟨⟨by decide, by decide, by decide, by decide, by decide, by decide, by decide⟩,
   (C3_roundtrip_single_edit "" "Teh cat" ⟨"vry", "very", "s1"⟩ ⟨"Teh", "The", "Spelling", "g1"⟩
      (by decide) (by decide) (by decide) (by decide) (by decide) (by decide) (by decide)).1,
   (C3_roundtrip_single_edit "" "Teh cat" ⟨"vry", "very", "s1"⟩ ⟨"Teh", "The", "Spelling", "g1"⟩
      (by decide) (by decide) (by decide) (by decide) (by decide) (by decide) (by decide)).2⟩

end MagicWriter

namespace MagicWriter

theorem countOcc_single_append (q : Char) (a b : List Char) :
    countOcc [q] (a ++ b) = countOcc [q] a + countOcc [q] b := by
  induction a with
  | nil => simp [countOcc]
  | cons x xs ih =>
    have hx : [q].isPrefixOf (x :: (xs ++ b)) = [q].isPrefixOf (x :: xs) := by
      simp [List.isPrefixOf]
    rw [show (x :: xs) ++ b = x :: (xs ++ b) from rfl,
      show countOcc [q] (x :: (xs ++ b))
        = (if [q].isPrefixOf (x :: (xs ++ b)) = true then 1 else 0) + countOcc [q] (xs ++ b)
        from rfl,
      show countOcc [q] (x :: xs)
        = (if [q].isPrefixOf (x :: xs) = true then 1 else 0) + countOcc [q] xs from rfl,
      hx, ih]
    omega

theorem escapeQuotesL_no_quote (l : List Char) : countOcc ['"'] (escapeQuotesL l) = 0 := by
  induction l with
  | nil => rfl
  | cons x xs ih =>
    simp only [escapeQuotesL, countOcc_single_append, ih, Nat.add_zero]
    by_cases hx : x = '"'
    · rw [if_pos hx]
      decide
    · rw [if_neg hx]
      have hb : ('"' == x) = false := beq_eq_false_iff_ne.mpr (Ne.symm hx)
      simp [countOcc, List.isPrefixOf, hb]

theorem occursIn_of_isPrefixOf (pat cs : List Char) (h : pat.isPrefixOf cs = true) :
    occursIn pat cs = true := by
  cases cs with
  | nil =>
    cases pat with
    | nil => rfl
    | cons p ps => simp [List.isPrefixOf] at h
  | cons c cs' => simp [occursIn, h]

theorem occursIn_append_mid (pat a b : List Char) :
    occursIn pat (a ++ (pat ++ b)) = true := by
  induction a with
  | nil =>
    simp only [List.nil_append]
    exact occursIn_of_isPrefixOf _ _ (isPrefixOf_append_self pat b)
  | cons x xs ih =>
    simp [occursIn, ih]

theorem occursIn_of_decomp (pat a b cs : List Char) (h : cs = a ++ (pat ++ b)) :
    occursIn pat cs = true := by
  rw [h]
  exact occursIn_append_mid pat a b

end MagicWriter

namespace MagicWriter

theorem escapeQuotes_no_quote (t : String) :
    countOcc ['"'] (escapeQuotes t).toList = 0 :=
  escapeQuotesL_no_quote t.toList

/-- C8 (amended): every rendered overlay carries its kind-discriminating
CSS class, the edit id and a `title` attribute; double quotes are escaped
only in the style-suggestion title (so a quote-free id and match text
leave exactly the six attribute-delimiter quotes), while the grammar
overlay interpolates the explanation unescaped, adding every quote it
contains to the markup. -/
theorem C8_overlay_attributes (s : Suggestion) (e : GrammarError)
    (hsid : countOcc ['"'] s.id.toList = 0)
    (hsorig : countOcc ['"'] s.originalText.toList = 0)
    (heid : countOcc ['"'] e.id.toList = 0)
    (heerr : countOcc ['"'] e.errorText.toList = 0) :
    occursIn "suggestion-underline".toList (suggestionSpan s).toList = true
    ∧ occursIn s.id.toList (suggestionSpan s).toList = true
    ∧ occursIn "title=".toList (suggestionSpan s).toList = true
    ∧ occursIn "grammar-error-underline".toList (grammarSpan e).toList = true
    ∧ occursIn e.id.toList (grammarSpan e).toList = true
    ∧ occursIn "title=".toList (grammarSpan e).toList = true
    ∧ countOcc ['"'] (suggestionSpan s).toList = 6
    ∧ countOcc ['"'] (grammarSpan e).toList = 6 + countOcc ['"'] e.explanation.toList := by
  refine ⟨?_, ?_, ?_, ?_, ?_, ?_, ?_, ?_⟩
  · have hspan : (suggestionSpan s).toList =
        "<span class=\"".toList ++ ("suggestion-underline".toList ++
          ("\" id=\"suggestion-".toList ++ (s.id.toList ++
            ("\" title=\"Suggested change: ".toList ++ ((escapeQuotes s.suggestedText).toList ++
              ("\">".toList ++ (s.originalText.toList ++ "</span>".toList))))))) := by
      have sp1 : "<span class=\"suggestion-underline\" id=\"suggestion-".toList
          = "<span class=\"".toList ++
              ("suggestion-underline".toList ++ "\" id=\"suggestion-".toList) := rfl
      simp only [suggestionSpan, toList_append, sp1, List.append_assoc]
    exact occursIn_of_decomp _ _ _ _ hspan
  · have hspan : (suggestionSpan s).toList =
        "<span class=\"suggestion-underline\" id=\"suggestion-".toList ++ (s.id.toList ++
          ("\" title=\"Suggested change: ".toList ++ ((escapeQuotes s.suggestedText).toList ++
            ("\">".toList ++ (s.originalText.toList ++ "</span>".toList))))) := by
      simp only [suggestionSpan, toList_append, List.append_assoc]
    exact occursIn_of_decomp _ _ _ _ hspan
  · have hspan : (suggestionSpan s).toList =
        ("<span class=\"suggestion-underline\" id=\"suggestion-".toList ++
            (s.id.toList ++ "\" ".toList)) ++
          ("title=".toList ++ ("\"Suggested change: ".toList ++
            ((escapeQuotes s.suggestedText).toList ++
              ("\">".toList ++ (s.originalText.toList ++ "</span>".toList))))) := by
      have spB : "\" title=\"Suggested change: ".toList
          = "\" ".toList ++ ("title=".toList ++ "\"Suggested change: ".toList) := rfl
      simp only [suggestionSpan, toList_append, spB, List.append_assoc]
    exact occursIn_of_decomp _ _ _ _ hspan
  · have hspan : (grammarSpan e).toList =
        "<span class=\"".toList ++ ("grammar-error-underline".toList ++
          ("\" id=\"error-".toList ++ (e.id.toList ++
            ("\" title=\"".toList ++ (e.explanation.toList ++
              ("\">".toList ++ (e.errorText.toList ++ "</span>".toList))))))) := by
      have sp1 : "<span class=\"grammar-error-underline\" id=\"error-".toList
          = "<span class=\"".toList ++
              ("grammar-error-underline".toList ++ "\" id=\"error-".toList) := rfl
      simp only [grammarSpan, toList_append, sp1, List.append_assoc]
    exact occursIn_of_decomp _ _ _ _ hspan
  · have hspan : (grammarSpan e).toList =
        "<span class=\"grammar-error-underline\" id=\"error-".toList ++ (e.id.toList ++
          ("\" title=\"".toList ++ (e.explanation.toList ++
            ("\">".toList ++ (e.errorText.toList ++ "</span>".toList))))) := by
      simp only [grammarSpan, toList_append, List.append_assoc]
    exact occursIn_of_decomp _ _ _ _ hspan
  · have hspan : (grammarSpan e).toList =
        ("<span class=\"grammar-error-underline\" id=\"error-".toList ++
            (e.id.toList ++ "\" ".toList)) ++
          ("title=".toList ++ ("\"".toList ++ (e.explanation.toList ++
            ("\">".toList ++ (e.errorText.toList ++ "</span>".toList))))) := by
      have spB : "\" title=\"".toList
          = "\" ".toList ++ ("title=".toList ++ "\"".toList) := rfl
      simp only [grammarSpan, toList_append, spB, List.append_assoc]
    exact occursIn_of_decomp _ _ _ _ hspan
  · have cA : countOcc ['"']
        "<span class=\"suggestion-underline\" id=\"suggestion-".toList = 3 := by decide
    have cB : countOcc ['"'] "\" title=\"Suggested change: ".toList = 2 := by decide
    have cC : countOcc ['"'] "\">".toList = 1 := by decide
    have cD : countOcc ['"'] "</span>".toList = 0 := by decide
    have cE := escapeQuotes_no_quote s.suggestedText
    simp only [suggestionSpan, toList_append, countOcc_single_append, cA, cB, cC, cD, cE,
      hsid, hsorig]
  · have cA : countOcc ['"']
        "<span class=\"grammar-error-underline\" id=\"error-".toList = 3 := by decide
    have cB : countOcc ['"'] "\" title=\"".toList = 2 := by decide
    have cC : countOcc ['"'] "\">".toList = 1 := by decide
    have cD : countOcc ['"'] "</span>".toList = 0 := by decide
    simp only [grammarSpan, toList_append, countOcc_single_append, cA, cB, cC, cD,
      heid, heerr]
    omega

theorem C8_witness :
    (countOcc ['"'] ("s1" : String).toList = 0 ∧ countOcc ['"'] ("vry" : String).toList = 0
      ∧ countOcc ['"'] ("g1" : String).toList = 0 ∧ countOcc ['"'] ("Teh" : String).toList = 0) ∧
    countOcc ['"'] (suggestionSpan ⟨"vry", "very", "s1"⟩).toList = 6
    ∧ countOcc ['"'] (grammarSpan ⟨"Teh", "The", "a \"quoted\" word", "g1"⟩).toList =
        6 + countOcc ['"'] ("a \"quoted\" word" : String).toList :=
  ⟨⟨by decide, by decide, by decide, by decide⟩,
   (C8_overlay_attributes ⟨"vry", "very", "s1"⟩ ⟨"Teh", "The", "a \"quoted\" word", "g1"⟩
      (by decide) (by decide) (by decide) (by decide)).2.2.2.2.2.2.1,
   (C8_overlay_attributes ⟨"vry", "very", "s1"⟩ ⟨"Teh", "The", "a \"quoted\" word", "g1"⟩
      (by decide) (by decide) (by decide) (by decide)).2.2.2.2.2.2.2⟩

end MagicWriter
